import Mathlib

/-!
Verification development for the gurmat-veechar-react-native local cache /
sync engine and playback session.

The definitions below are a shallow embedding of the TypeScript source:

* `src/services/database.ts` — track records (`upsertTrack`, `getTrack`,
  `markTrackCompleted`, `updateTrackPosition`, `deleteDownloadedTrack`),
  the tree-mirror table (`saveCachedItems`, `getCachedItems`,
  `getCachedItemsFromSeed`, `getLocalCachedItems`);
* `src/services/folderSync.ts` — `needsSync`, `markSynced`,
  `cleanupOldSyncEntries`, `syncFolderIfNeeded`, `forceSyncFolder`, and the
  HTML structural extractor `parseHtmlResponse`;
* the audio store (`setQueue` windowing) and the playback source selection
  of `playTrack`.

Conventions of the embedding:

* SQLite NULL-able columns are `Option`; `COALESCE` is `coalesce` below.
* JavaScript `number` timestamps are `Int`, REAL playback positions and
  durations are `Rat` (no floating-point arithmetic is performed on them by
  the modelled code: they are only stored, copied and compared).
* Asynchronous effects are made explicit: the remote fetch outcome is an
  `Option (List ...)` argument (`none` = network/HTTP failure, i.e. the
  surrounding `try` catches a throw), `Date.now()` is a `now` argument.
* Thrown JavaScript exceptions of modelled pure code are `Except.error`
  (used for `decodeURIComponent`, which throws `URIError` on malformed
  percent escapes).
* Surrogate row ids (SQLite AUTOINCREMENT / Core Data `Z_PK`) are omitted:
  no claim mentions them; the `id` reassignment `map((item, index) => ...)`
  in the sync code therefore becomes the identity on the modelled fields.
-/

/-! ### JavaScript string primitives -/

/-- JavaScript `\s` (and `String.prototype.trim`) character class:
whitespace and line terminators. -/
def isJsSpace (c : Char) : Bool :=
  c = ' ' || c = '\t' || c = '\n' || c = '\r' ||
  c.toNat = 11 || c.toNat = 12 || c.toNat = 0xA0 || c.toNat = 0xFEFF ||
  c.toNat = 0x1680 || (0x2000 ≤ c.toNat && c.toNat ≤ 0x200A) ||
  c.toNat = 0x2028 || c.toNat = 0x2029 || c.toNat = 0x202F ||
  c.toNat = 0x205F || c.toNat = 0x3000

/-- Case-insensitive character comparison, as the regex `i` flag
canonicalises ASCII letters. -/
def charEqCI (a b : Char) : Bool :=
  a.toLower = b.toLower

/-- Match the literal pattern `pat` case-insensitively at the head of `s`;
return the consumed characters (in their original case) and the rest. -/
def stripCI : List Char → List Char → Option (List Char × List Char)
  | [], s => some ([], s)
  | _ :: _, [] => none
  | p :: ps, c :: cs =>
    if charEqCI p c then
      match stripCI ps cs with
      | some (m, r) => some (c :: m, r)
      | none => none
    else none

/-- Hexadecimal digit value, as used by `decodeURIComponent` when reading a
`%XY` escape (code points 48–57 are `0`–`9`, 97–102 are `a`–`f`, 65–70 are
`A`–`F`). -/
def hexDigitValue (c : Char) : Option Nat :=
  let n := c.toNat
  if 48 ≤ n && n ≤ 57 then some (n - 48)
  else if 97 ≤ n && n ≤ 102 then some (n - 87)
  else if 65 ≤ n && n ≤ 70 then some (n - 55)
  else none

/-- Read one `%XY` escape whose byte must lie in `[lo, hi]` (a UTF-8
continuation byte of a multi-byte sequence); `decodeURIComponent` throws
`URIError` otherwise. -/
def readEscapedByte (lo hi : Nat) : List Char → Except String (Nat × List Char)
  | '%' :: h1 :: h2 :: rest =>
    match hexDigitValue h1, hexDigitValue h2 with
    | some a, some b =>
      let v := a * 16 + b
      if lo ≤ v && v ≤ hi then .ok (v, rest) else .error "URI malformed"
    | _, _ => .error "URI malformed"
  | _ => .error "URI malformed"

/-- One step of `decodeURIComponent`: decode the escape sequence starting at
a `%`, returning the decoded code point and the remaining input.  Follows
the ECMA-262 `Decode` algorithm: the leading byte classifies the UTF-8
sequence, continuation bytes must themselves be percent escapes, and
overlong encodings, surrogates and out-of-range bytes throw `URIError`. -/
def decodeEscape (s : List Char) : Except String (Char × List Char) :=
  match s with
  | h1 :: h2 :: rest =>
    match hexDigitValue h1, hexDigitValue h2 with
    | some a, some b =>
      let v := a * 16 + b
      if v < 0x80 then .ok (Char.ofNat v, rest)
      else if 0xC2 ≤ v && v ≤ 0xDF then
        match readEscapedByte 0x80 0xBF rest with
        | .ok (c1, r) => .ok (Char.ofNat ((v - 0xC0) * 64 + (c1 - 0x80)), r)
        | .error e => .error e
      else if v = 0xE0 then
        match readEscapedByte 0xA0 0xBF rest with
        | .ok (c1, r) =>
          match readEscapedByte 0x80 0xBF r with
          | .ok (c2, r2) =>
            .ok (Char.ofNat ((v - 0xE0) * 4096 + (c1 - 0x80) * 64 + (c2 - 0x80)), r2)
          | .error e => .error e
        | .error e => .error e
      else if (0xE1 ≤ v && v ≤ 0xEC) || v = 0xEE || v = 0xEF then
        match readEscapedByte 0x80 0xBF rest with
        | .ok (c1, r) =>
          match readEscapedByte 0x80 0xBF r with
          | .ok (c2, r2) =>
            .ok (Char.ofNat ((v - 0xE0) * 4096 + (c1 - 0x80) * 64 + (c2 - 0x80)), r2)
          | .error e => .error e
        | .error e => .error e
      else if v = 0xED then
        match readEscapedByte 0x80 0x9F rest with
        | .ok (c1, r) =>
          match readEscapedByte 0x80 0xBF r with
          | .ok (c2, r2) =>
            .ok (Char.ofNat ((v - 0xE0) * 4096 + (c1 - 0x80) * 64 + (c2 - 0x80)), r2)
          | .error e => .error e
        | .error e => .error e
      else if v = 0xF0 then
        match readEscapedByte 0x90 0xBF rest with
        | .ok (c1, r) =>
          match readEscapedByte 0x80 0xBF r with
          | .ok (c2, r2) =>
            match readEscapedByte 0x80 0xBF r2 with
            | .ok (c3, r3) =>
              .ok (Char.ofNat ((v - 0xF0) * 262144 + (c1 - 0x80) * 4096 +
                    (c2 - 0x80) * 64 + (c3 - 0x80)), r3)
            | .error e => .error e
          | .error e => .error e
        | .error e => .error e
      else if 0xF1 ≤ v && v ≤ 0xF3 then
        match readEscapedByte 0x80 0xBF rest with
        | .ok (c1, r) =>
          match readEscapedByte 0x80 0xBF r with
          | .ok (c2, r2) =>
            match readEscapedByte 0x80 0xBF r2 with
            | .ok (c3, r3) =>
              .ok (Char.ofNat ((v - 0xF0) * 262144 + (c1 - 0x80) * 4096 +
                    (c2 - 0x80) * 64 + (c3 - 0x80)), r3)
            | .error e => .error e
          | .error e => .error e
        | .error e => .error e
      else if v = 0xF4 then
        match readEscapedByte 0x80 0x8F rest with
        | .ok (c1, r) =>
          match readEscapedByte 0x80 0xBF r with
          | .ok (c2, r2) =>
            match readEscapedByte 0x80 0xBF r2 with
            | .ok (c3, r3) =>
              .ok (Char.ofNat ((v - 0xF0) * 262144 + (c1 - 0x80) * 4096 +
                    (c2 - 0x80) * 64 + (c3 - 0x80)), r3)
            | .error e => .error e
          | .error e => .error e
        | .error e => .error e
      else .error "URI malformed"
    | _, _ => .error "URI malformed"
  | _ => .error "URI malformed"

/-- Fuel-indexed body of `decodeURIComponent`: literal characters pass
through, `%` starts an escape sequence. -/
def decodeURIChars : Nat → List Char → Except String (List Char)
  | 0, _ => .ok []
  | _ + 1, [] => .ok []
  | fuel + 1, '%' :: rest =>
    match decodeEscape rest with
    | .ok (c, r) =>
      match decodeURIChars fuel r with
      | .ok tail => .ok (c :: tail)
      | .error e => .error e
    | .error e => .error e
  | fuel + 1, c :: rest =>
    match decodeURIChars fuel rest with
    | .ok tail => .ok (c :: tail)
    | .error e => .error e

/-- JavaScript `decodeURIComponent`; throws (`Except.error`) `URI malformed`
on malformed or non-UTF-8 percent escapes. -/
def decodeURIComponent (s : String) : Except String String :=
  match decodeURIChars s.length s.toList with
  | .ok l => .ok (String.mk l)
  | .error e => .error e

/-- JavaScript `String.prototype.substring(a, b)`: both indices are clamped
into `[0, length]` and swapped when out of order. -/
def jsSubstring (s : String) (a b : Int) : String :=
  let len : Int := s.length
  let clamp : Int → Nat := fun x => (min (max x 0) len).toNat
  let a' := clamp a
  let b' := clamp b
  let lo := min a' b'
  let hi := max a' b'
  String.mk ((s.toList.drop lo).take (hi - lo))

/-- JavaScript `String.prototype.substring(a)` (end defaults to length). -/
def jsSubstringFrom (s : String) (a : Int) : String :=
  jsSubstring s a s.length

/-- JavaScript `String.prototype.lastIndexOf` for a single character:
`-1` when absent. -/
def lastIdxOf (c : Char) (s : String) : Int :=
  match s.toList.reverse.findIdx? (· = c) with
  | some i => (s.length : Int) - 1 - i
  | none => -1

/-- Split a character list on a separator character (JavaScript
`split(sep)` for a one-character separator). -/
def splitOnChar (sep : Char) : List Char → List (List Char)
  | [] => [[]]
  | x :: xs =>
    match splitOnChar sep xs with
    | seg :: rest => if x = sep then [] :: seg :: rest else (x :: seg) :: rest
    | [] => [[]]

/-- JavaScript `s.split('/').pop() || ''`: the last `/`-separated segment
(`''` both when `pop` yields `undefined` and when it yields `''`). -/
def lastSlashSegment (s : String) : String :=
  String.mk ((splitOnChar '/' s.toList).getLastD [])

/-- JavaScript `String.prototype.startsWith` (kernel-reducible form). -/
def strStartsWith (s pat : String) : Bool :=
  pat.toList.isPrefixOf s.toList

/-- JavaScript `String.prototype.includes` for a one-character needle. -/
def strContainsChar (s : String) (c : Char) : Bool :=
  s.toList.any (fun x => x = c)

/-- JavaScript `String.prototype.trim`. -/
def jsTrim (l : List Char) : List Char :=
  ((l.dropWhile isJsSpace).reverse.dropWhile isJsSpace).reverse

/-- `replace(/_/g, ' ')`. -/
def underscoresToSpaces (l : List Char) : List Char :=
  l.map fun c => if c = '_' then ' ' else c

/-- `replace(/\./g, ' ')`. -/
def dotsToSpaces (l : List Char) : List Char :=
  l.map fun c => if c = '.' then ' ' else c

def isAsciiDigit (c : Char) : Bool :=
  '0' ≤ c && c ≤ '9'

/-- `replace(/^\d+\s*/, '')`: one anchored replacement stripping a leading
digit run and any whitespace that follows it. -/
def stripLeadingDigits (l : List Char) : List Char :=
  let d := l.takeWhile isAsciiDigit
  if d.isEmpty then l else (l.drop d.length).dropWhile isJsSpace

/-- Case-insensitive list equality (regex `i` flag on a literal). -/
def listEqCI : List Char → List Char → Bool
  | [], [] => true
  | a :: as', b :: bs => charEqCI a b && listEqCI as' bs
  | _, _ => false

/-- Does `l` end with the pattern `pat`, case-insensitively? -/
def endsWithCI (pat l : List Char) : Bool :=
  pat.length ≤ l.length && listEqCI (l.drop (l.length - pat.length)) pat

/-- `replace(/\.mp3$/i, '')`: strip one trailing `.mp3` (case-insensitive). -/
def stripMp3Suffix (l : List Char) : List Char :=
  if endsWithCI ".mp3".toList l then l.take (l.length - 4) else l

/-- `replace(/\s*--\s*/g, ' - ')`: global left-to-right replacement; a match
is a (possibly empty) whitespace run, `--`, and a (possibly empty)
whitespace run. -/
def replaceDashRuns : Nat → List Char → List Char
  | 0, l => l
  | _ + 1, [] => []
  | fuel + 1, c :: cs =>
    let sp := (c :: cs).takeWhile isJsSpace
    match (c :: cs).drop sp.length with
    | '-' :: '-' :: r =>
      ' ' :: '-' :: ' ' :: replaceDashRuns fuel (r.dropWhile isJsSpace)
    | _ => c :: replaceDashRuns fuel cs

/-- `replace(/\s+/g, ' ')`: collapse whitespace runs to a single space.  The
flag records whether the previous character was part of a run. -/
def collapseWsAux : Bool → List Char → List Char
  | _, [] => []
  | prevSpace, c :: cs =>
    if isJsSpace c then
      if prevSpace then collapseWsAux true cs else ' ' :: collapseWsAux true cs
    else c :: collapseWsAux false cs

def collapseWs (l : List Char) : List Char :=
  collapseWsAux false l

/-! ### Structural extractor (`parseHtmlResponse`)

The two regex scans are embedded as deterministic scanners.  Both source
files (`src/services/api.ts` and `src/services/folderSync.ts`) contain the
same function; the embedding covers both.

Folder links: `/audio\.php\?q=f&f=(%2F[^"'&\s<>]+)/gi`.  The character
class is negated and the run is greedy, so the leftmost match takes the
maximal run — no backtracking can produce a different capture.

Audio links: `/href=["'](?:https?:\/\/[^/]+)?\/audios([^"']+\.mp3)["']/gi`.
`[^/]+` is followed by the literal `/`, and `[^"']+` is followed by a quote
after `\.mp3`, so in each case only the maximal run can complete the match;
the only genuine alternatives are the optional scheme group and the
optional `s` of `https?`, which are tried greedily with fallback exactly as
the backtracking engine does. -/

def dquote : Char := Char.ofNat 34

def squote : Char := Char.ofNat 39

def isQuote (c : Char) : Bool :=
  c = dquote || c = squote

/-- The character class `[^"'&\s<>]` of the folder-link capture. -/
def isFolderParamChar (c : Char) : Bool :=
  !(c = dquote || c = squote || c = '&' || c = '<' || c = '>' || isJsSpace c)

/-- Try the folder-link pattern at the head of `s`; on success return the
capture (`%2F` plus the greedy run) and the input after the match. -/
def tryFolderAt (s : List Char) : Option (List Char × List Char) :=
  match stripCI "audio.php?q=f&f=".toList s with
  | none => none
  | some (_, r1) =>
    match stripCI "%2f".toList r1 with
    | none => none
    | some (m2, r2) =>
      let run := r2.takeWhile isFolderParamChar
      if run.isEmpty then none else some (m2 ++ run, r2.drop run.length)

/-- `folderRegex.exec` loop: leftmost matches, resuming after each match.
The fuel is the input length; every step consumes at least one character. -/
def scanFolderCaptures : Nat → List Char → List (List Char)
  | 0, _ => []
  | _ + 1, [] => []
  | fuel + 1, c :: cs =>
    match tryFolderAt (c :: cs) with
    | some (cap, rest) => cap :: scanFolderCaptures fuel rest
    | none => scanFolderCaptures fuel cs

/-- The suffix of the audio pattern from `\/audios` on: literal `/audios`,
the capture `([^"']+\.mp3)`, and a closing quote. -/
def tryAudioTail (s : List Char) : Option (List Char × List Char) :=
  match stripCI "/audios".toList s with
  | none => none
  | some (_, r1) =>
    let run := r1.takeWhile (fun c => !isQuote c)
    match r1.drop run.length with
    | q :: rest =>
      if isQuote q && decide (5 ≤ run.length) && endsWithCI ".mp3".toList run then
        some (run, rest)
      else none
    | [] => none

/-- `:\/\/[^/]+` followed by the audio tail. -/
def trySchemeRest (s : List Char) : Option (List Char × List Char) :=
  match stripCI "://".toList s with
  | none => none
  | some (_, r1) =>
    let host := r1.takeWhile (· ≠ '/')
    if host.isEmpty then none else tryAudioTail (r1.drop host.length)

/-- The optional scheme group `(?:https?:\/\/[^/]+)?` plus everything after
it; `https?` tries the `s` first and falls back, as the engine does. -/
def tryScheme (s : List Char) : Option (List Char × List Char) :=
  match stripCI "http".toList s with
  | none => none
  | some (_, r1) =>
    let withS :=
      match stripCI "s".toList r1 with
      | some (_, r2) => trySchemeRest r2
      | none => none
    match withS with
    | some v => some v
    | none => trySchemeRest r1

/-- Try the whole audio-link pattern at the head of `s`. -/
def tryAudioAt (s : List Char) : Option (List Char × List Char) :=
  match stripCI "href=".toList s with
  | none => none
  | some (_, r1) =>
    match r1 with
    | q :: r2 =>
      if isQuote q then
        match tryScheme r2 with
        | some v => some v
        | none => tryAudioTail r2
      else none
    | [] => none

/-- `audioRegex.exec` loop. -/
def scanAudioCaptures : Nat → List Char → List (List Char)
  | 0, _ => []
  | _ + 1, [] => []
  | fuel + 1, c :: cs =>
    match tryAudioAt (c :: cs) with
    | some (cap, rest) => cap :: scanAudioCaptures fuel rest
    | none => scanAudioCaptures fuel cs

/-! ### Mirror-store data model -/

inductive ItemTy where
  | folder
  | audio
deriving DecidableEq, Repr

/-- One `cached_folders` / `CachedFolder` tree entry (surrogate id omitted,
see the header). -/
structure CachedItem where
  parentPath : String
  itemName : String
  itemPath : String
  itemType : ItemTy
  sortOrder : Int
  lastUpdated : Int
deriving DecidableEq, Repr

def AUDIO_BASE_URL : String := "https://gurmatveechar.com/audios"

/-- Folder display name:
`rawName.replace(/_/g, ' ').replace(/^\d+\s*/, '').trim() || rawName`. -/
def folderDisplayName (rawName : String) : String :=
  let d := String.mk (jsTrim (stripLeadingDigits (underscoresToSpaces rawName.toList)))
  if d = "" then rawName else d

/-- Audio display name: strip the `.mp3` extension, dots to spaces,
`--` runs to ` - `, collapse whitespace, trim. -/
def audioDisplayName (fileName : String) : String :=
  let l1 := stripMp3Suffix fileName.toList
  let l2 := dotsToSpaces l1
  let l3 := replaceDashRuns l2.length l2
  String.mk (jsTrim (collapseWs l3))

/-- The folder `while` loop of `parseHtmlResponse`: decode each capture
(`decodeURIComponent` may throw), apply the self/ancestor, strict-descendant
and direct-child filters, deduplicate by decoded path, and append with
`sortOrder = items.length`. -/
def folderLoop (parentPath : String) (now : Int) :
    List (List Char) → List CachedItem → List String →
    Except String (List CachedItem × List String)
  | [], items, seen => .ok (items, seen)
  | cap :: caps, items, seen =>
    match decodeURIComponent (String.mk cap) with
    | .error e => .error e
    | .ok itemPath =>
      if itemPath = parentPath || strStartsWith parentPath (itemPath ++ "/") then
        folderLoop parentPath now caps items seen
      else if !strStartsWith itemPath (parentPath ++ "/") then
        folderLoop parentPath now caps items seen
      else
        let relativePath := jsSubstringFrom itemPath ((parentPath.length : Int) + 1)
        if strContainsChar relativePath '/' then folderLoop parentPath now caps items seen
        else if seen.any (fun p => p = itemPath) then folderLoop parentPath now caps items seen
        else
          let rawName := lastSlashSegment itemPath
          let item : CachedItem :=
            { parentPath := parentPath
              itemName := folderDisplayName rawName
              itemPath := itemPath
              itemType := .folder
              sortOrder := items.length
              lastUpdated := now }
          folderLoop parentPath now caps (items ++ [item]) (seen ++ [itemPath])

/-- The audio `while` loop of `parseHtmlResponse`: decode each capture,
require the implied parent to equal `parentPath`, deduplicate (the `seen`
set is shared with the folder loop), and append. -/
def audioLoop (parentPath : String) (now : Int) :
    List (List Char) → List CachedItem → List String →
    Except String (List CachedItem × List String)
  | [], items, seen => .ok (items, seen)
  | cap :: caps, items, seen =>
    match decodeURIComponent (String.mk cap) with
    | .error e => .error e
    | .ok audioPath =>
      let itemPath := AUDIO_BASE_URL ++ audioPath
      let audioParentPath := "/" ++ jsSubstring audioPath 1 (lastIdxOf '/' audioPath)
      if audioParentPath ≠ parentPath then audioLoop parentPath now caps items seen
      else if seen.any (fun p => p = itemPath) then audioLoop parentPath now caps items seen
      else
        let fileName := jsSubstringFrom audioPath (lastIdxOf '/' audioPath + 1)
        let displayName := audioDisplayName fileName
        let item : CachedItem :=
          { parentPath := parentPath
            itemName := if displayName = "" then fileName else displayName
            itemPath := itemPath
            itemType := .audio
            sortOrder := items.length
            lastUpdated := now }
        audioLoop parentPath now caps (items ++ [item]) (seen ++ [itemPath])

/-- `parseHtmlResponse(html, parentPath)` of `src/services/folderSync.ts`
(lines 204–268) and `src/services/api.ts` (lines 39–103): run the folder
scan, then the audio scan, sharing the dedup set and the item list.
`Except.error` models an uncaught JavaScript exception. -/
def parseHtmlResponse (html parentPath : String) (now : Int) :
    Except String (List CachedItem) :=
  let hl := html.toList
  match folderLoop parentPath now (scanFolderCaptures hl.length hl) [] [] with
  | .error e => .error e
  | .ok (items, seen) =>
    match audioLoop parentPath now (scanAudioCaptures hl.length hl) items seen with
    | .error e => .error e
    | .ok (items2, _) => .ok items2

/-! ### Track records (`tracks` table, `src/services/database.ts`) -/

/-- SQL `COALESCE` of two possibly-NULL values. -/
def coalesce {α : Type} : Option α → Option α → Option α
  | some v, _ => some v
  | none, b => b

/-- One row of the `tracks` table.  `track_url` and `track_name` are
`NOT NULL`; every other column is NULL-able (`is_downloaded` and
`is_completed` store the integers 0/1 the JavaScript layer binds). -/
structure TrackRow where
  track_url : String
  track_name : String
  track_duration : Option Rat
  track_size_bytes : Option Int
  current_playback_time : Option Rat
  is_downloaded : Option Int
  local_file_path : Option String
  last_played_date : Option Int
  download_date : Option Int
  is_completed : Option Int
deriving DecidableEq, Repr

/-- The argument of `upsertTrack`: `Partial<Track> & {trackUrl; trackName}`.
A `none` field is an absent (`undefined`) property. -/
structure TrackPartial where
  trackUrl : String
  trackName : String
  trackDuration : Option Rat := none
  trackSizeBytes : Option Int := none
  currentPlaybackTime : Option Rat := none
  isDownloaded : Option Bool := none
  localFilePath : Option String := none
  lastPlayedDate : Option Int := none
  downloadDate : Option Int := none
  isCompleted : Option Bool := none
deriving DecidableEq, Repr

/-- The parameter array `upsertTrack` binds: `track.trackDuration ?? 0`,
`track.isDownloaded ? 1 : 0`, `track.localFilePath ?? null`, etc.  Note the
numeric and boolean parameters are never NULL. -/
def bindUpsertParams (t : TrackPartial) : TrackRow :=
  { track_url := t.trackUrl
    track_name := t.trackName
    track_duration := some (t.trackDuration.getD 0)
    track_size_bytes := some (t.trackSizeBytes.getD 0)
    current_playback_time := some (t.currentPlaybackTime.getD 0)
    is_downloaded := some (if t.isDownloaded.getD false then 1 else 0)
    local_file_path := t.localFilePath
    last_played_date := t.lastPlayedDate
    download_date := t.downloadDate
    is_completed := some (if t.isCompleted.getD false then 1 else 0) }

/-- The `ON CONFLICT(track_url) DO UPDATE SET` clause applied to the
existing row `old` with the failed insert's values `exc` (`excluded.*`). -/
def upsertOnConflict (old exc : TrackRow) : TrackRow :=
  { track_url := old.track_url
    track_name := exc.track_name
    track_duration := coalesce exc.track_duration old.track_duration
    track_size_bytes := coalesce exc.track_size_bytes old.track_size_bytes
    current_playback_time := coalesce exc.current_playback_time old.current_playback_time
    is_downloaded := coalesce exc.is_downloaded old.is_downloaded
    local_file_path := coalesce exc.local_file_path old.local_file_path
    last_played_date := coalesce exc.last_played_date old.last_played_date
    download_date := coalesce exc.download_date old.download_date
    is_completed := coalesce exc.is_completed old.is_completed }

/-- `upsertTrack(track)`: insert, or on a `track_url` conflict apply the
update clause to the conflicting row. -/
def upsertTrack (t : TrackPartial) (db : List TrackRow) : List TrackRow :=
  let exc := bindUpsertParams t
  if db.any (fun r => r.track_url = t.trackUrl) then
    db.map fun r => if r.track_url = t.trackUrl then upsertOnConflict r exc else r
  else
    db ++ [exc]

/-- The `Track` object `getTrack` returns (surrogate id omitted). -/
structure Track where
  trackUrl : String
  trackName : String
  trackDuration : Option Rat
  trackSizeBytes : Option Int
  currentPlaybackTime : Option Rat
  isDownloaded : Bool
  localFilePath : Option String
  lastPlayedDate : Option Int
  downloadDate : Option Int
  isCompleted : Bool
deriving DecidableEq, Repr

/-- The row-to-object mapping of `getTrack`
(`isDownloaded: row.is_downloaded === 1`, etc.). -/
def rowToTrack (r : TrackRow) : Track :=
  { trackUrl := r.track_url
    trackName := r.track_name
    trackDuration := r.track_duration
    trackSizeBytes := r.track_size_bytes
    currentPlaybackTime := r.current_playback_time
    isDownloaded := r.is_downloaded = some 1
    localFilePath := r.local_file_path
    lastPlayedDate := r.last_played_date
    downloadDate := r.download_date
    isCompleted := r.is_completed = some 1 }

/-- `getTrack(trackUrl)`: `SELECT * FROM tracks WHERE track_url = ?`,
first row or `null`. -/
def getTrack (trackUrl : String) (db : List TrackRow) : Option Track :=
  (db.find? (fun r => r.track_url = trackUrl)).map rowToTrack

/-- `UPDATE tracks SET ... WHERE track_url = ?`. -/
def tracksUpdateWhere (trackUrl : String) (f : TrackRow → TrackRow)
    (db : List TrackRow) : List TrackRow :=
  db.map fun r => if r.track_url = trackUrl then f r else r

/-- `updateTrackPosition(trackUrl, position, isCompleted)`; `now` is the
`Date.now()` bound to `last_played_date`. -/
def updateTrackPosition (trackUrl : String) (position : Rat)
    (isCompleted : Bool) (now : Int) (db : List TrackRow) : List TrackRow :=
  tracksUpdateWhere trackUrl
    (fun r =>
      { r with
        current_playback_time := some position
        is_completed := some (if isCompleted then 1 else 0)
        last_played_date := some now })
    db

/-- `trackUrl.split('/').pop() || 'Unknown'`. -/
def fallbackTrackName (trackUrl : String) : String :=
  let n := lastSlashSegment trackUrl
  if n = "" then "Unknown" else n

/-- `markTrackCompleted(trackUrl, isCompleted)`: first
`upsertTrack({trackUrl, trackName})` to ensure the row exists, then
`UPDATE tracks SET is_completed = ?, current_playback_time =
CASE WHEN ? = 1 THEN 0 ELSE current_playback_time END WHERE track_url = ?`. -/
def markTrackCompleted (trackUrl : String) (isCompleted : Bool)
    (db : List TrackRow) : List TrackRow :=
  let db1 := upsertTrack { trackUrl := trackUrl, trackName := fallbackTrackName trackUrl } db
  tracksUpdateWhere trackUrl
    (fun r =>
      { r with
        is_completed := some (if isCompleted then 1 else 0)
        current_playback_time := if isCompleted then some 0 else r.current_playback_time })
    db1

/-- `deleteDownloadedTrack(trackUrl)`: `UPDATE tracks SET is_downloaded = 0,
local_file_path = NULL WHERE track_url = ?`. -/
def deleteDownloadedTrack (trackUrl : String) (db : List TrackRow) : List TrackRow :=
  tracksUpdateWhere trackUrl
    (fun r => { r with is_downloaded := some 0, local_file_path := none })
    db

/-- The `handleTrackCompletion` database effect (part_003 lines 155–176):
`updateTrackPosition(currentTrack.trackUrl, 0, true)`. -/
def handleTrackCompletionDb (trackUrl : String) (now : Int)
    (db : List TrackRow) : List TrackRow :=
  updateTrackPosition trackUrl 0 true now db

/-! ### Mirror-store operations (`cached_folders` and the seed table) -/

/-- `saveCachedItems(items)`: per item one
`INSERT OR IGNORE INTO cached_folders ...`; the unique index
`idx_cached_folders_path(item_path)` makes the ignore fire exactly when a
row with the same `itemPath` already exists. -/
def saveCachedItems (items : List CachedItem) (tbl : List CachedItem) : List CachedItem :=
  items.foldl
    (fun acc it => if acc.any (fun r => r.itemPath = it.itemPath) then acc else acc ++ [it])
    tbl

/-- `ORDER BY sort_order ASC, item_name ASC` comparison. -/
def cachedItemLt (a b : CachedItem) : Bool :=
  a.sortOrder < b.sortOrder || (a.sortOrder = b.sortOrder && a.itemName < b.itemName)

/-- Stable insertion: an element goes after every strictly smaller one and
before the first not-smaller one. -/
def sortInsert {α : Type} (lt : α → α → Bool) (x : α) : List α → List α
  | [] => [x]
  | y :: ys => if lt y x then y :: sortInsert lt x ys else x :: y :: ys

/-- Stable sort (elements with equal keys keep their relative order). -/
def stableSortBy {α : Type} (lt : α → α → Bool) (l : List α) : List α :=
  l.foldr (sortInsert lt) []

/-- Stable sort realising the SQL `ORDER BY`. -/
def sortCachedItems (l : List CachedItem) : List CachedItem :=
  stableSortBy cachedItemLt l

/-- Per-folder application state: the Core-Data seed table (already mapped
to the common shape), the runtime `cached_folders` table, and the
AsyncStorage key-value area holding the sync timestamps. -/
structure AppState where
  seed : List CachedItem
  cached : List CachedItem
  kv : List (String × Int)
deriving DecidableEq, Repr

/-- `getCachedItemsFromSeed(parentPath)`: the seed rows of that parent,
ordered by `ZSORTORDER ASC, ZITEMNAME ASC`. -/
def getCachedItemsFromSeed (st : AppState) (parentPath : String) : List CachedItem :=
  sortCachedItems (st.seed.filter (fun r => r.parentPath = parentPath))

/-- `getCachedItems(parentPath)` on the runtime schema. -/
def getCachedItems (st : AppState) (parentPath : String) : List CachedItem :=
  sortCachedItems (st.cached.filter (fun r => r.parentPath = parentPath))

/-- `getLocalCachedItems(parentPath)`: seed rows if any, else runtime
rows; no API fallback. -/
def getLocalCachedItems (st : AppState) (parentPath : String) : List CachedItem :=
  let seedItems := getCachedItemsFromSeed st parentPath
  if seedItems.isEmpty then getCachedItems st parentPath else seedItems

/-! ### Sync scheduler (`src/services/folderSync.ts`) -/

def SYNC_INTERVAL_MS : Int := 30 * 24 * 60 * 60 * 1000

def MAX_SYNC_ENTRIES : Nat := 1000

def CLEANUP_INTERVAL_MS : Int := 7 * 24 * 60 * 60 * 1000

def CLEANUP_KEY : String := "folderSync:lastCleanup"

/-- The AsyncStorage key `'folderSync:' + folderPath`. -/
def syncKeyFor (folderPath : String) : String :=
  "folderSync:" ++ folderPath

/-- `AsyncStorage.getItem` (with `parseInt` of the stored decimal string
folded in; every stored value is a `Date.now().toString()`). -/
def kvGet (k : String) (m : List (String × Int)) : Option Int :=
  (m.find? (fun p => p.1 = k)).map (fun p => p.2)

/-- `AsyncStorage.setItem`: overwrite in place, or append a new key. -/
def kvSet (k : String) (v : Int) (m : List (String × Int)) : List (String × Int) :=
  if m.any (fun p => p.1 = k) then
    m.map fun p => if p.1 = k then (k, v) else p
  else m ++ [(k, v)]

/-- `needsSync(folderPath)`: never synced, or synced more than
`SYNC_INTERVAL_MS` ago. -/
def needsSync (now : Int) (folderPath : String) (kv : List (String × Int)) : Bool :=
  match kvGet (syncKeyFor folderPath) kv with
  | none => true
  | some lastSyncDate => now - lastSyncDate > SYNC_INTERVAL_MS

/-- `cleanupOldSyncEntries()`: gated by its own last-cleanup timestamp;
under the cap it only refreshes that timestamp, over the cap it evicts the
oldest sync timestamps (stable ascending sort on the value, matching the
JavaScript stable `sort((a, b) => a.timestamp - b.timestamp)`). -/
def cleanupOldSyncEntries (now : Int) (kv : List (String × Int)) : List (String × Int) :=
  let proceed :=
    match kvGet CLEANUP_KEY kv with
    | some lastCleanup => decide (now - lastCleanup ≥ CLEANUP_INTERVAL_MS)
    | none => true
  if !proceed then kv
  else
    let syncKeys := (kv.map Prod.fst).filter
      (fun k => strStartsWith k "folderSync:" && k ≠ CLEANUP_KEY)
    if syncKeys.length ≤ MAX_SYNC_ENTRIES then kvSet CLEANUP_KEY now kv
    else
      let entries := syncKeys.filterMap (fun k => (kvGet k kv).map (fun v => (k, v)))
      let sorted := stableSortBy (fun a b : String × Int => a.2 < b.2) entries
      let keysToRemove := (sorted.take (entries.length - MAX_SYNC_ENTRIES)).map Prod.fst
      let kv2 := kv.filter (fun p => !keysToRemove.any (fun k => k = p.1))
      kvSet CLEANUP_KEY now kv2

/-- `markSynced(folderPath)`: record `Date.now()` under the folder's key,
then run the opportunistic cleanup pass. -/
def markSynced (now : Int) (folderPath : String) (kv : List (String × Int)) :
    List (String × Int) :=
  cleanupOldSyncEntries now (kvSet (syncKeyFor folderPath) now kv)

/-- `forceSyncFolder(folderPath)` (folderSync.ts lines 149–183).  `fetched`
is the outcome of `fetchFolderFromApi`: `none` when the fetch threw (network
failure, HTTP error, or an extractor throw — the `catch` path), otherwise
the parsed listing.  Returns the result list and the new state; the `id`
reassignment of the returned fresh listing is the identity here (ids are
not modelled). -/
def forceSyncFolder (fetched : Option (List CachedItem)) (folderPath : String)
    (now : Int) (st : AppState) : List CachedItem × AppState :=
  match fetched with
  | none => (getLocalCachedItems st folderPath, st)
  | some apiItems =>
    if apiItems.isEmpty then (getLocalCachedItems st folderPath, st)
    else
      let existingItems := getLocalCachedItems st folderPath
      let existingPaths := existingItems.map (fun i => i.itemPath)
      let newItems := apiItems.filter (fun i => !existingPaths.any (fun p => p = i.itemPath))
      let st1 :=
        if newItems.isEmpty then st
        else { st with cached := saveCachedItems newItems st.cached }
      let st2 := { st1 with kv := markSynced now folderPath st1.kv }
      (apiItems, st2)

/-- `syncFolderIfNeeded(folderPath, onNewItems)` (folderSync.ts lines
95–143), i.e. the body of its fire-and-forget async block.  Returns the new
state and the argument `onNewItems` was invoked with (`none` = callback not
invoked).  Errors are swallowed: a failed fetch (`fetched = none`) leaves
the state unchanged. -/
def syncFolderIfNeeded (fetched : Option (List CachedItem)) (folderPath : String)
    (now : Int) (st : AppState) : AppState × Option (List CachedItem) :=
  if !needsSync now folderPath st.kv then (st, none)
  else
    match fetched with
    | none => (st, none)
    | some apiItems =>
      if apiItems.isEmpty then (st, none)
      else
        let existingItems := getLocalCachedItems st folderPath
        let existingPaths := existingItems.map (fun i => i.itemPath)
        let newItems := apiItems.filter (fun i => !existingPaths.any (fun p => p = i.itemPath))
        if newItems.isEmpty then
          ({ st with kv := markSynced now folderPath st.kv }, none)
        else
          let st1 := { st with cached := saveCachedItems newItems st.cached }
          let st2 := { st1 with kv := markSynced now folderPath st1.kv }
          (st2, some apiItems)

/-! ### Playback session (part_003, part_004) -/

/-- The playback-source selection of `playTrack` (part_003 lines 39–47):
`savedTrack?.isDownloaded && savedTrack.localFilePath` with JavaScript
truthiness — a `null` or empty `localFilePath` is falsy. -/
def playTrackUri (savedTrack : Option Track) (trackUrl : String) : String :=
  match savedTrack with
  | none => trackUrl
  | some t =>
    match t.localFilePath with
    | none => trackUrl
    | some p => if t.isDownloaded && p ≠ "" then p else trackUrl

/-- Modelled from the spec: claim C10's wording of the source selection —
the local file is used exactly when the stored record has `isDownloaded`
true and a non-`null` `localFilePath`. -/
def playTrackUriSpec (savedTrack : Option Track) (trackUrl : String) : String :=
  match savedTrack with
  | none => trackUrl
  | some t =>
    match t.localFilePath with
    | none => trackUrl
    | some p => if t.isDownloaded then p else trackUrl

/-- A transient queue item (part_004). -/
structure QueueItem where
  trackUrl : String
  trackName : String
  folderPath : String
  folderName : String
deriving DecidableEq, Repr

def MAX_QUEUE_SIZE : Nat := 500

/-- `setQueue(queue, startIndex)` (part_004 lines 69–96): window the queue
around the start index when it exceeds the cap.  Returns the stored
`(queue, currentIndex, currentTrack)`.  `Math.max(0, ·)` on the
non-negative JavaScript indices is truncated subtraction;
`queue.slice(a, b)` is `(queue.drop a).take (b - a)`. -/
def setQueue (queue : List QueueItem) (startIndex : Nat) :
    List QueueItem × Nat × Option QueueItem :=
  let (limitedQueue, adjustedIndex) :=
    if MAX_QUEUE_SIZE < queue.length then
      let halfWindow := MAX_QUEUE_SIZE / 2
      let windowStart0 := startIndex - halfWindow
      let windowEnd0 := windowStart0 + MAX_QUEUE_SIZE
      let windowStart := if queue.length < windowEnd0 then queue.length - MAX_QUEUE_SIZE else windowStart0
      let windowEnd := if queue.length < windowEnd0 then queue.length else windowEnd0
      ((queue.drop windowStart).take (windowEnd - windowStart), startIndex - windowStart)
    else (queue, startIndex)
  (limitedQueue, adjustedIndex, limitedQueue[adjustedIndex]?)

deriving instance DecidableEq for Except

/-! ### Concrete fixtures used by the theorems and witnesses below -/

/-- A fully-populated stored track row (url `"u"`). -/
def rowFull : TrackRow :=
  { track_url := "u", track_name := "orig", track_duration := some 60,
    track_size_bytes := some 1000, current_playback_time := some 100,
    is_downloaded := some 1, local_file_path := some "/f",
    last_played_date := some 5, download_date := some 6, is_completed := some 1 }

/-- HTML holding folder links to `/A`, `/A/B` and `/A/B/C`. -/
def htmlABC : String :=
  "<a href=\"audio.php?q=f&f=%2FA\">x</a> <a href=\"audio.php?q=f&f=%2FA%2FB\">y</a> <a href=\"audio.php?q=f&f=%2FA%2FB%2FC\">z</a>"

/-- HTML whose folder-link parameter carries a malformed percent escape
(the trailing `%`). -/
def htmlBadEscape : String := "audio.php?q=f&f=%2Fa%"

/-- Three cached children of `/K`, in stored order. -/
def kidA : CachedItem :=
  { parentPath := "/K", itemName := "a", itemPath := "/K/a",
    itemType := .folder, sortOrder := 0, lastUpdated := 1 }

def kidB : CachedItem :=
  { parentPath := "/K", itemName := "b", itemPath := "/K/b",
    itemType := .folder, sortOrder := 1, lastUpdated := 1 }

def kidC : CachedItem :=
  { parentPath := "/K", itemName := "c", itemPath := "/K/c",
    itemType := .audio, sortOrder := 2, lastUpdated := 1 }

/-- A state whose only contents are the three cached children of `/K`. -/
def stThree : AppState :=
  { seed := [], cached := [kidA, kidB, kidC], kv := [] }

/-- A 600-item queue. -/
def bigQ : List QueueItem :=
  List.replicate 600
    { trackUrl := "t", trackName := "t", folderPath := "/K", folderName := "K" }

/-- A stored record marked downloaded whose `localFilePath` is the empty
string (non-`null`, but falsy in JavaScript). -/
def trackEmptyLocalPath : Track :=
  { trackUrl := "https://r", trackName := "n", trackDuration := none,
    trackSizeBytes := none, currentPlaybackTime := none, isDownloaded := true,
    localFilePath := some "", lastPlayedDate := none, downloadDate := none,
    isCompleted := false }

/-- A stored record marked downloaded with a non-empty local path. -/
def trackWithLocalPath : Track :=
  { trackUrl := "https://r", trackName := "n", trackDuration := none,
    trackSizeBytes := none, currentPlaybackTime := none, isDownloaded := true,
    localFilePath := some "/dl/x.mp3", lastPlayedDate := none, downloadDate := none,
    isCompleted := false }

/-! ### Theorems for the claims -/

/-- Claim C1 (refuted, code bug): an `upsertTrack` carrying only `trackUrl`
and `trackName` does NOT leave the other fields of an existing record
unchanged.  The JavaScript layer binds `?? 0` / `? 1 : 0` defaults, so
`excluded.track_duration`, `excluded.track_size_bytes`,
`excluded.current_playback_time`, `excluded.is_downloaded` and
`excluded.is_completed` are never NULL and the SQL `COALESCE` merge never
falls back to the stored value: those five fields are reset to `0`.  Only
the NULL-default columns `local_file_path`, `last_played_date` and
`download_date` are preserved.  Evaluated at a fully-populated record. -/
theorem upsertTrack_partial_resets_fields :
    getTrack "u" (upsertTrack { trackUrl := "u", trackName := "n" } [rowFull]) =
      some
        { trackUrl := "u", trackName := "n", trackDuration := some 0,
          trackSizeBytes := some 0, currentPlaybackTime := some 0,
          isDownloaded := false, localFilePath := some "/f",
          lastPlayedDate := some 5, downloadDate := some 6,
          isCompleted := false } := by
  decide

/-- Claim C2 (refuted in part, code bug): `markTrackCompleted(u, false)` on
an existing record does NOT preserve the stored `currentPlaybackTime` (here
100): the preliminary `upsertTrack({trackUrl, trackName})` zeroes it before
the `UPDATE`'s `CASE WHEN` — which itself deliberately preserves the column
when un-marking — can run.  The other parts of the claim hold on this
evaluation: after natural completion the position reads 0, after
`markTrackCompleted(v, true)` the record is created with `isCompleted` and
position 0. -/
theorem markTrackCompleted_false_zeroes_position :
    (getTrack "u" (markTrackCompleted "u" false [rowFull]) =
      some
        { trackUrl := "u", trackName := "u", trackDuration := some 0,
          trackSizeBytes := some 0, currentPlaybackTime := some 0,
          isDownloaded := false, localFilePath := some "/f",
          lastPlayedDate := some 5, downloadDate := some 6,
          isCompleted := false })
    ∧ ((getTrack "u" (handleTrackCompletionDb "u" 7 [rowFull])).map
        (fun t => (t.currentPlaybackTime, t.isCompleted)) = some (some 0, true))
    ∧ ((getTrack "v" (markTrackCompleted "v" true [])).map
        (fun t => (t.currentPlaybackTime, t.isCompleted)) = some (some 0, true)) := by
  refine ⟨by decide, by decide, by decide⟩

/-- Claim C5 (refuted, code bug): `parseHtmlResponse` is not total — a
malformed percent escape in a folder-link parameter reaches
`decodeURIComponent`, which throws `URIError: URI malformed`, and nothing
in `parseHtmlResponse` catches it.  Evaluated at a 21-character HTML
fragment whose parameter ends in a bare `%`. -/
theorem parseHtmlResponse_throws_on_bad_escape :
    parseHtmlResponse htmlBadEscape "/A" 0 = .error "URI malformed" := by
  decide

set_option maxRecDepth 16384 in
/-- Claim C7 (confirmed): on HTML with folder links to `/A`, `/A/B` and
`/A/B/C`, extraction under parent `/A` yields exactly the direct child
`/A/B` (the self link and the grandchild are rejected), and extraction
under `/A/B` yields exactly `/A/B/C`. -/
theorem parseHtmlResponse_direct_child_filter :
    parseHtmlResponse htmlABC "/A" 5 =
      .ok [{ parentPath := "/A", itemName := "B", itemPath := "/A/B",
             itemType := .folder, sortOrder := 0, lastUpdated := 5 }]
    ∧ parseHtmlResponse htmlABC "/A/B" 5 =
      .ok [{ parentPath := "/A/B", itemName := "C", itemPath := "/A/B/C",
             itemType := .folder, sortOrder := 0, lastUpdated := 5 }] := by
  refine ⟨by decide, by decide⟩

/-! ### Support lemmas -/

/-- One `INSERT OR IGNORE` step of `saveCachedItems` keeps every already
present `itemPath` present. -/
theorem insertIfAbsent_any_mono (acc : List CachedItem) (it : CachedItem) (p : String)
    (h : acc.any (fun r => r.itemPath = p) = true) :
    ((if acc.any (fun r => r.itemPath = it.itemPath) then acc else acc ++ [it]).any
      (fun r => r.itemPath = p)) = true := by
  by_cases hc : acc.any (fun r => r.itemPath = it.itemPath) = true
  · rw [if_pos hc]; exact h
  · rw [if_neg hc]; simp [List.any_append, h]

/-- After one `INSERT OR IGNORE` step the inserted `itemPath` is present. -/
theorem insertIfAbsent_any_self (acc : List CachedItem) (it : CachedItem) :
    ((if acc.any (fun r => r.itemPath = it.itemPath) then acc else acc ++ [it]).any
      (fun r => r.itemPath = it.itemPath)) = true := by
  by_cases hc : acc.any (fun r => r.itemPath = it.itemPath) = true
  · rw [if_pos hc]; exact hc
  · rw [if_neg hc]; simp [List.any_append]

theorem saveCachedItems_any_mono (p : String) :
    ∀ (items acc : List CachedItem), acc.any (fun r => r.itemPath = p) = true →
      (saveCachedItems items acc).any (fun r => r.itemPath = p) = true
  | [], _, h => h
  | it :: rest, acc, h =>
    saveCachedItems_any_mono p rest _ (insertIfAbsent_any_mono acc it p h)

/-- After `saveCachedItems items`, every item of `items` has its path in the
table. -/
theorem saveCachedItems_any_covers :
    ∀ (items acc : List CachedItem) (it : CachedItem), it ∈ items →
      (saveCachedItems items acc).any (fun r => r.itemPath = it.itemPath) = true := by
  intro items
  induction items with
  | nil => intro acc it h; cases h
  | cons a rest ih =>
    intro acc it h
    rcases List.mem_cons.mp h with rfl | h'
    · exact saveCachedItems_any_mono _ rest _ (insertIfAbsent_any_self acc it)
    · exact ih _ it h'

/-- `saveCachedItems` is the identity when every path is already present. -/
theorem saveCachedItems_of_covered :
    ∀ (items acc : List CachedItem),
      (∀ it ∈ items, acc.any (fun r => r.itemPath = it.itemPath) = true) →
      saveCachedItems items acc = acc
  | [], _, _ => rfl
  | it :: rest, acc, h => by
    have hhead := h it (List.mem_cons_self it rest)
    show saveCachedItems rest
      (if acc.any (fun r => r.itemPath = it.itemPath) then acc else acc ++ [it]) = acc
    rw [if_pos hhead]
    exact saveCachedItems_of_covered rest acc (fun x hx => h x (List.mem_cons_of_mem it hx))

/-- `saveCachedItems` preserves the uniqueness of `itemPath`. -/
theorem saveCachedItems_nodup :
    ∀ (items acc : List CachedItem),
      (acc.map (fun r => r.itemPath)).Nodup →
      ((saveCachedItems items acc).map (fun r => r.itemPath)).Nodup
  | [], _, h => h
  | it :: rest, acc, h => by
    show ((saveCachedItems rest
      (if acc.any (fun r => r.itemPath = it.itemPath) then acc else acc ++ [it])).map
        (fun r => r.itemPath)).Nodup
    by_cases hc : acc.any (fun r => r.itemPath = it.itemPath) = true
    · rw [if_pos hc]; exact saveCachedItems_nodup rest acc h
    · rw [if_neg hc]
      refine saveCachedItems_nodup rest _ ?_
      have hdisj : ∀ x ∈ acc, ¬x.itemPath = it.itemPath := by
        intro x hx hxe
        exact hc (List.any_eq_true.mpr ⟨x, hx, by simp [hxe]⟩)
      simpa [List.nodup_append] using ⟨h, hdisj⟩

/-- Claim C6 (confirmed): re-inserting the same entry set is a no-op on the
whole mirror table (hence on every parent's children), and the unique
`itemPath` index is preserved: if no two rows shared an `itemPath` before,
none do after. -/
theorem saveCachedItems_idempotent (items tbl : List CachedItem)
    (h : (tbl.map (fun r => r.itemPath)).Nodup) :
    saveCachedItems items (saveCachedItems items tbl) = saveCachedItems items tbl ∧
    ((saveCachedItems items tbl).map (fun r => r.itemPath)).Nodup :=
  ⟨saveCachedItems_of_covered items _ (fun it hit => saveCachedItems_any_covers items tbl it hit),
   saveCachedItems_nodup items tbl h⟩

/-- Witness for C6 at a concrete store and entry set. -/
theorem saveCachedItems_idempotent_witness :
    saveCachedItems [kidB, kidC] (saveCachedItems [kidB, kidC] [kidA, kidB]) =
        saveCachedItems [kidB, kidC] [kidA, kidB] ∧
    ((saveCachedItems [kidB, kidC] [kidA, kidB]).map (fun r => r.itemPath)).Nodup :=
  saveCachedItems_idempotent [kidB, kidC] [kidA, kidB] (by decide)

/-- `UPDATE ... WHERE track_url` commutes with the `getTrack` lookup when
the update never changes `track_url`. -/
theorem find?_tracksUpdateWhere (url : String) (f : TrackRow → TrackRow)
    (hf : ∀ r, (f r).track_url = r.track_url) :
    ∀ db : List TrackRow,
      List.find? (fun r => r.track_url = url) (tracksUpdateWhere url f db) =
        (List.find? (fun r => r.track_url = url) db).map
          (fun r => if r.track_url = url then f r else r)
  | [] => rfl
  | r :: rs => by
    show List.find? (fun r => r.track_url = url)
        ((if r.track_url = url then f r else r) :: tracksUpdateWhere url f rs) = _
    by_cases h : r.track_url = url
    · have hfa : (f r).track_url = url := by rw [hf r]; exact h
      simp [h, hfa, List.find?_cons]
    · simp [h, List.find?_cons, find?_tracksUpdateWhere url f hf rs]

/-- Claim C9 (confirmed, frame property): `deleteDownloadedTrack` on any
stored record clears exactly `isDownloaded` and `localFilePath`; the record
still exists, and every other field reads back unchanged. -/
theorem deleteDownloadedTrack_frame (db : List TrackRow) (url : String) (t : Track)
    (h : getTrack url db = some t) :
    getTrack url (deleteDownloadedTrack url db) =
      some { t with isDownloaded := false, localFilePath := none } := by
  unfold getTrack at h ⊢
  obtain ⟨r, hr, ht⟩ := Option.map_eq_some'.mp h
  have hu : r.track_url = url := by simpa using List.find?_some hr
  unfold deleteDownloadedTrack tracksUpdateWhere
  rw [show (List.map (fun r => if r.track_url = url then
        { r with is_downloaded := some 0, local_file_path := none } else r) db) =
      tracksUpdateWhere url
        (fun r => { r with is_downloaded := some 0, local_file_path := none }) db from rfl,
    find?_tracksUpdateWhere url
      (fun r => { r with is_downloaded := some 0, local_file_path := none })
      (fun _ => rfl) db, hr]
  subst ht
  simp [hu, rowToTrack]

/-- Witness for C9 at a concrete fully-populated record. -/
theorem deleteDownloadedTrack_frame_witness :
    getTrack "u" (deleteDownloadedTrack "u" [rowFull]) =
      some { rowToTrack rowFull with isDownloaded := false, localFilePath := none } :=
  deleteDownloadedTrack_frame [rowFull] "u" (rowToTrack rowFull) (by decide)

/-- Claim C3 (confirmed): `forceSyncFolder` is a total function of the fetch
outcome (it cannot throw); it returns the fresh listing when the fetch
succeeded with a non-empty result and degrades to the locally cached
entries when the fetch failed or returned an empty listing. -/
theorem forceSyncFolder_spec (fetched : Option (List CachedItem)) (path : String)
    (now : Int) (st : AppState) :
    (fetched = none →
      (forceSyncFolder fetched path now st).1 = getLocalCachedItems st path) ∧
    (fetched = some [] →
      (forceSyncFolder fetched path now st).1 = getLocalCachedItems st path) ∧
    (∀ l, fetched = some l → l ≠ [] →
      (forceSyncFolder fetched path now st).1 = l) := by
  refine ⟨fun h => ?_, fun h => ?_, fun l h hne => ?_⟩
  · subst h; rfl
  · subst h; rfl
  · subst h
    cases l with
    | nil => exact absurd rfl hne
    | cons a as => rfl

/-- Witness for C3: a network failure with three cached entries returns
exactly those three entries (and, separately applying the third conjunct, a
non-empty fresh listing is returned as is). -/
theorem forceSyncFolder_spec_witness :
    (forceSyncFolder none "/K" 9 stThree).1 = [kidA, kidB, kidC] ∧
    (forceSyncFolder (some [kidA]) "/K" 9 stThree).1 = [kidA] := by
  constructor
  · rw [(forceSyncFolder_spec none "/K" 9 stThree).1 rfl]; decide
  · exact (forceSyncFolder_spec (some [kidA]) "/K" 9 stThree).2.2 [kidA] rfl (by decide)

/-- Rewriting every binding of key `k'` to `(k', v)` does not affect the
first binding found for a different key `k`. -/
theorem find?_map_set_ne (k k' : String) (v : Int) (hne : k ≠ k') :
    ∀ m : List (String × Int),
      List.find? (fun p => p.1 = k) (m.map (fun p => if p.1 = k' then (k', v) else p)) =
        List.find? (fun p => p.1 = k) m
  | [] => rfl
  | (a, b) :: rest => by
    rw [List.map_cons]
    by_cases ha : a = k'
    · subst ha
      rw [if_pos rfl, List.find?_cons_of_neg _ (by simp [Ne.symm hne]),
        List.find?_cons_of_neg _ (by simp [Ne.symm hne])]
      exact find?_map_set_ne k a v hne rest
    · rw [if_neg ha]
      by_cases hk : a = k
      · rw [List.find?_cons_of_pos _ (by simp [hk]), List.find?_cons_of_pos _ (by simp [hk])]
      · rw [List.find?_cons_of_neg _ (by simp [hk]), List.find?_cons_of_neg _ (by simp [hk])]
        exact find?_map_set_ne k k' v hne rest

/-- Rewriting the bindings of a present key `k` to `(k, v)` makes `k`'s
first binding `(k, v)`. -/
theorem find?_map_set_self (k : String) (v : Int) :
    ∀ m : List (String × Int), m.any (fun p => p.1 = k) = true →
      List.find? (fun p => p.1 = k) (m.map (fun p => if p.1 = k then (k, v) else p)) =
        some (k, v)
  | [], h => by cases h
  | (a, b) :: rest, h => by
    rw [List.map_cons]
    by_cases ha : a = k
    · rw [if_pos ha, List.find?_cons_of_pos _ (by simp)]
    · have hrest : rest.any (fun p => p.1 = k) = true := by
        simpa [List.any_cons, ha] using h
      rw [if_neg ha, List.find?_cons_of_neg _ (by simp [ha])]
      exact find?_map_set_self k v rest hrest

/-- Appending a binding for an absent key makes it the first binding. -/
theorem find?_append_single (k : String) (v : Int) :
    ∀ m : List (String × Int), m.any (fun p => p.1 = k) = false →
      List.find? (fun p => p.1 = k) (m ++ [(k, v)]) = some (k, v)
  | [], _ => by simp [List.find?_cons]
  | (a, b) :: rest, h => by
    have ha : ¬a = k := by
      intro hc
      simp [List.any_cons, hc] at h
    have hrest : rest.any (fun p => p.1 = k) = false := by
      simpa [List.any_cons, ha] using h
    rw [List.cons_append, List.find?_cons_of_neg _ (by simp [ha])]
    exact find?_append_single k v rest hrest

/-- `AsyncStorage.setItem` then `getItem` of the same key reads the stored
value. -/
theorem kvGet_kvSet_self (k : String) (v : Int) (m : List (String × Int)) :
    kvGet k (kvSet k v m) = some v := by
  unfold kvGet kvSet
  by_cases h : m.any (fun p => p.1 = k) = true
  · rw [if_pos h, find?_map_set_self k v m h]; rfl
  · rw [if_neg h, find?_append_single k v m (by rw [← Bool.not_eq_true]; exact h)]
    rfl

/-- `AsyncStorage.setItem` does not change lookups of other keys. -/
theorem kvGet_kvSet_ne (k k' : String) (v : Int) (hne : k ≠ k')
    (m : List (String × Int)) : kvGet k (kvSet k' v m) = kvGet k m := by
  unfold kvGet kvSet
  by_cases h : m.any (fun p => p.1 = k') = true
  · rw [if_pos h, find?_map_set_ne k k' v hne m]
  · rw [if_neg h, List.find?_append]
    have hsingle : List.find? (fun p => p.1 = k) [(k', v)] = none := by
      simp [List.find?_cons, Ne.symm hne]
    rw [hsingle]
    cases List.find? (fun p => p.1 = k) m <;> rfl

theorem kvSet_length_le (k : String) (v : Int) (m : List (String × Int)) :
    (kvSet k v m).length ≤ m.length + 1 := by
  unfold kvSet
  by_cases h : m.any (fun p => p.1 = k) = true
  · rw [if_pos h]; simp
  · rw [if_neg h]; simp

/-- When at most `MAX_SYNC_ENTRIES` sync keys are tracked, the cleanup pass
never evicts: it either returns early or only rewrites `CLEANUP_KEY`. -/
theorem cleanupOldSyncEntries_small (now : Int) (kv : List (String × Int))
    (hcount : ((kv.map Prod.fst).filter
      (fun k => strStartsWith k "folderSync:" && k ≠ CLEANUP_KEY)).length ≤
        MAX_SYNC_ENTRIES) :
    cleanupOldSyncEntries now kv = kv ∨
      cleanupOldSyncEntries now kv = kvSet CLEANUP_KEY now kv := by
  unfold cleanupOldSyncEntries
  cases hcl : kvGet CLEANUP_KEY kv with
  | none =>
    right
    simp only [Bool.not_true, Bool.false_eq_true, if_false]
    rw [if_pos hcount]
  | some lc =>
    by_cases hgate : now - lc ≥ CLEANUP_INTERVAL_MS
    · right
      simp only [hgate]
      rw [if_neg (by simp), if_pos hcount]
    · left
      simp [hgate]

/-- `markSynced` leaves the folder's timestamp readable when fewer than
`MAX_SYNC_ENTRIES` keys were stored (so the cleanup pass cannot evict). -/
theorem markSynced_kvGet (now : Int) (path : String) (kv : List (String × Int))
    (h : kv.length < MAX_SYNC_ENTRIES) :
    kvGet (syncKeyFor path) (markSynced now path kv) = some now := by
  unfold markSynced
  have hself : kvGet (syncKeyFor path) (kvSet (syncKeyFor path) now kv) = some now :=
    kvGet_kvSet_self _ now kv
  have hcount :
      ((((kvSet (syncKeyFor path) now kv)).map Prod.fst).filter
        (fun k => strStartsWith k "folderSync:" && k ≠ CLEANUP_KEY)).length ≤
        MAX_SYNC_ENTRIES := by
    calc ((((kvSet (syncKeyFor path) now kv)).map Prod.fst).filter
            (fun k => strStartsWith k "folderSync:" && k ≠ CLEANUP_KEY)).length
        ≤ ((kvSet (syncKeyFor path) now kv).map Prod.fst).length :=
          List.length_filter_le _ _
      _ = (kvSet (syncKeyFor path) now kv).length := List.length_map _ _
      _ ≤ kv.length + 1 := kvSet_length_le _ now kv
      _ ≤ MAX_SYNC_ENTRIES := h
  rcases cleanupOldSyncEntries_small now (kvSet (syncKeyFor path) now kv) hcount with
    heq | heq
  · rw [heq]; exact hself
  · rw [heq]
    by_cases hk : syncKeyFor path = CLEANUP_KEY
    · rw [hk]; exact kvGet_kvSet_self _ now _
    · rw [kvGet_kvSet_ne _ _ now hk _]; exact hself

/-- Claim C4, counterexample: with no timestamp recorded (`needsSync` true)
and a successful fetch returning an empty listing, passive sync records no
sync timestamp — the `apiItems.length === 0` early return skips
`markSynced`. -/
theorem syncFolderIfNeeded_empty_listing_skips_markSynced :
    needsSync 100 "/A" ([] : List (String × Int)) = true ∧
    syncFolderIfNeeded (some []) "/A" 100 { seed := [], cached := [], kv := [] } =
      ({ seed := [], cached := [], kv := [] }, none) ∧
    kvGet (syncKeyFor "/A")
      ((syncFolderIfNeeded (some []) "/A" 100
        { seed := [], cached := [], kv := [] }).1.kv) = none := by
  refine ⟨by decide, by decide, by decide⟩

/-- Claim C4 as amended (proved): when passive sync runs (`needsSync` true)
and the fetch succeeds with a NON-EMPTY listing, the folder's sync
timestamp is recorded at the end of the pipeline regardless of whether the
diff found new items.  The bound on the stored key count keeps the cleanup
pass from being able to evict. -/
theorem syncFolderIfNeeded_records_timestamp (st : AppState) (path : String)
    (now : Int) (l : List CachedItem) (h1 : needsSync now path st.kv = true)
    (h2 : l ≠ []) (h3 : st.kv.length < MAX_SYNC_ENTRIES) :
    kvGet (syncKeyFor path) ((syncFolderIfNeeded (some l) path now st).1.kv) =
      some now := by
  unfold syncFolderIfNeeded
  rw [h1]
  simp only [Bool.not_true, Bool.false_eq_true, if_false]
  cases l with
  | nil => exact absurd rfl h2
  | cons a as =>
    simp only [List.isEmpty_cons, Bool.false_eq_true, if_false]
    split
    · exact markSynced_kvGet now path st.kv h3
    · exact markSynced_kvGet now path st.kv h3

/-- Witness for the amended C4: empty-diff pipeline on a fresh state. -/
theorem syncFolderIfNeeded_records_timestamp_witness :
    kvGet (syncKeyFor "/A")
      ((syncFolderIfNeeded (some [kidA]) "/A" 5
        { seed := [], cached := [], kv := [] }).1.kv) = some 5 :=
  syncFolderIfNeeded_records_timestamp { seed := [], cached := [], kv := [] } "/A" 5
    [kidA] (by decide) (by decide) (by decide)

/-- Claim C8 (confirmed): for any 600-item queue, `setQueue` at start index
550 stores the window `queue.slice(100, 600)` of length exactly 500,
adjusts `currentIndex` to 450 where the original item 550 sits, and keeps
all 49 items that followed index 550 after it (original index `j` maps to
window index `j - 100 > 450`). -/
theorem setQueue_window_600_550 (q : List QueueItem) (h : q.length = 600) :
    (setQueue q 550).1 = (q.drop 100).take 500 ∧
    (setQueue q 550).1.length = 500 ∧
    (setQueue q 550).2.1 = 450 ∧
    (setQueue q 550).1[450]? = q[550]? ∧
    (∀ j, 550 < j → j < 600 →
      450 < j - 100 ∧ (setQueue q 550).1[j - 100]? = q[j]?) := by
  have hwin : (setQueue q 550).1 = (q.drop 100).take 500 ∧ (setQueue q 550).2.1 = 450 := by
    unfold setQueue
    rw [h]
    norm_num [MAX_QUEUE_SIZE]
  refine ⟨hwin.1, ?_, hwin.2, ?_, ?_⟩
  · rw [hwin.1]; simp [h]
  · rw [hwin.1, List.getElem?_take, if_pos (by norm_num), List.getElem?_drop]
  · intro j h1 h2
    refine ⟨by omega, ?_⟩
    rw [hwin.1, List.getElem?_take, if_pos (by omega), List.getElem?_drop]
    congr 1
    omega

/-- Witness for C8 at a concrete 600-item queue. -/
theorem setQueue_window_600_550_witness :
    (setQueue bigQ 550).1.length = 500 ∧ (setQueue bigQ 550).2.1 = 450 :=
  ⟨(setQueue_window_600_550 bigQ (by rw [bigQ, List.length_replicate])).2.1,
   (setQueue_window_600_550 bigQ (by rw [bigQ, List.length_replicate])).2.2.1⟩

/-- Claim C10, counterexample: a stored record with `isDownloaded = true`
and the non-`null` `localFilePath = ""` makes `playTrack` use the remote
URL, not the stored path — JavaScript truthiness treats the empty string as
falsy, so the claim's "non-null" condition is not what the code tests. -/
theorem playTrackUri_empty_path_counterexample :
    playTrackUri (some trackEmptyLocalPath) "https://r" ≠
      playTrackUriSpec (some trackEmptyLocalPath) "https://r" ∧
    trackEmptyLocalPath.isDownloaded = true ∧
    trackEmptyLocalPath.localFilePath = some "" ∧
    playTrackUri (some trackEmptyLocalPath) "https://r" = "https://r" := by
  refine ⟨by decide, by decide, by decide, by decide⟩

/-- Claim C10 as amended (proved): the playback source is the stored
`localFilePath` exactly when the record exists, `isDownloaded` is true and
`localFilePath` is non-`null` AND non-empty; with no record, `isDownloaded`
false, or a `null` `localFilePath` the remote URL is used. -/
theorem playTrackUri_amended (saved : Option Track) (url : String) :
    (∀ t p, saved = some t → t.isDownloaded = true → t.localFilePath = some p →
      p ≠ "" → playTrackUri saved url = p) ∧
    (saved = none → playTrackUri saved url = url) ∧
    (∀ t, saved = some t → t.isDownloaded = false → playTrackUri saved url = url) ∧
    (∀ t, saved = some t → t.localFilePath = none → playTrackUri saved url = url) := by
  refine ⟨?_, ?_, ?_, ?_⟩
  · rintro t p rfl hd hp hne
    simp [playTrackUri, hp, hd, hne]
  · rintro rfl; rfl
  · rintro t rfl hd
    cases hp : t.localFilePath with
    | none => simp [playTrackUri, hp]
    | some p => simp [playTrackUri, hp, hd]
  · rintro t rfl hp
    simp [playTrackUri, hp]

/-- Witness for the amended C10: a downloaded record with a non-empty local
path plays from that path. -/
theorem playTrackUri_amended_witness :
    playTrackUri (some trackWithLocalPath) "https://r" = "/dl/x.mp3" :=
  (playTrackUri_amended (some trackWithLocalPath) "https://r").1 trackWithLocalPath
    "/dl/x.mp3" rfl rfl rfl (by decide)
